import Mathlib

/-! bandcampy: a shallow embedding of `bandcamp.go`

The program is a linear script with side effects.  The embedding threads an
explicit `World` through every function: the `World` carries the regular files
of the file system and a chronological trace of the observable operations
(log lines, page visits, `os.Stat`, `os.MkdirAll`, `os.Create`, `http.Get`,
`io.Copy`, standard output).  The trace keeps the strings the program hands
out; the files are kept by resolved path, since the file system takes a run of
slashes in a path for one separator.  What the operating system, the network and the
libraries answer is not decided by the program; it is passed in as an explicit
environment, so every theorem quantifies over all answers.

Go strings are modelled by Lean `String`s (sequences of Unicode scalar values,
that is, valid UTF-8).  Every string the program handles is of that kind: the
titles and names come out of `json.Unmarshal`, which never yields invalid
UTF-8.  Bytes are natural numbers.
-/

namespace Bandcamp

/-! ## Data model (`bandcamp.go`, lines 25-56) -/

/-- Config struct for environment and file paths. -/
structure Config where
  UserHomeDir : String
  BaseDir : String

/-- File represents the file details in JSON. -/
structure File where
  MP3_128 : String
  deriving DecidableEq, Repr

/-- TrackInfo represents a single track's data; pointer fields are options. -/
structure TrackInfo where
  ID : Option Int
  TrackID : Int
  File : Option File
  Artist : Option String
  Title : String
  TrackNum : Int
  Duration : Float
  AltLink : Option String
  PlayCount : Option Int
  IsCapped : Option Bool

/-- Album represents an album with track information and cover image link. -/
structure Album where
  Name : String
  TrackInfo : List TrackInfo
  CoverImageLink : String
  Artist : String

/-! ## Observable operations and the world -/

/-- One observable operation of a run, in the order the program performs them.
`downloadTracks` marks the entry into the function of that name; the other
constructors are calls that leave the process. -/
inductive Event where
  | log (msg : String)
  | stdout (msg : String)
  | visit (url : String)
  | stat (path : String)
  | mkdirAll (path : String)
  | downloadTracks (url fileName destDir : String)
  | create (path : String)
  | httpGet (url : String)
  | copy (path : String)
  | close (path : String)
  deriving DecidableEq, Repr

/-- The path resolution of the file system on the characters of a path: a run
of slashes is one separator. -/
def collapseSlashes : List Char → List Char
  | [] => []
  | c :: cs =>
    match cs with
    | [] => [c]
    | d :: _ => if c = '/' ∧ d = '/' then collapseSlashes cs else c :: collapseSlashes cs

/-- The resolved form of a path: two paths with the same resolved form name the
same file. -/
def resolvePath (path : String) : String :=
  String.mk (collapseSlashes path.data)

/-- The state outside the program: the regular files, kept by resolved path,
and the trace. -/
structure World where
  fs : String → Option (List Nat)
  trace : List Event

/-- Appends one operation to the trace. -/
def World.emit (w : World) (e : Event) : World :=
  { w with trace := w.trace ++ [e] }

/-- Replaces the content of the file `path` resolves to. -/
def World.writeFile (w : World) (path : String) (content : List Nat) : World :=
  { w with fs := fun p => if p = resolvePath path then some content else w.fs p }

/-- The content of the file `path` resolves to, if there is such a file. -/
def World.readFile (w : World) (path : String) : Option (List Nat) :=
  w.fs (resolvePath path)

/-- The result of running a piece of the program: it returns normally with a
value, or the process has exited (`log.Fatal` is `os.Exit(1)` after logging). -/
inductive Res (α : Type) where
  | ok (a : α) (w : World)
  | exit (code : Nat) (w : World)

/-- The world a run ends in. -/
def Res.world {α : Type} : Res α → World
  | .ok _ w => w
  | .exit _ w => w

/-- Whether the run returned normally. -/
def Res.returned {α : Type} : Res α → Bool
  | .ok _ _ => true
  | .exit _ _ => false

/-- The exit code of a run that terminated the process. -/
def Res.exitCode {α : Type} : Res α → Option Nat
  | .ok _ _ => none
  | .exit c _ => some c

/-- Sequencing: what follows runs only when the first part returned. -/
def Res.bind {α β : Type} (r : Res α) (f : α → World → Res β) : Res β :=
  match r with
  | .ok a w => f a w
  | .exit c w => .exit c w

/-- Go's `log.Printf` with the message already formatted. -/
def logPrintf (msg : String) (w : World) : World :=
  w.emit (.log msg)

/-- Go's `log.Fatal`: the message is logged and the process exits with 1. -/
def logFatal {α : Type} (msg : String) (w : World) : Res α :=
  .exit 1 (w.emit (.log msg))

/-! ## Library functions the program calls -/

/-- Go's `%d` verb for an `int`. -/
def fmtD (n : Int) : String :=
  match n with
  | .ofNat m => Nat.repr m
  | .negSucc m => "-" ++ Nat.repr (m + 1)

/-- Go's `strings.Contains`. -/
def stringsContains (s substr : String) : Bool :=
  s.data.tails.any (fun t => substr.data.isPrefixOf t)

/-- Go's `strings.ToLower` on ASCII input: `A`-`Z` go to `a`-`z`.  On other
input the library also lowers non-ASCII letters; the functions below take the
lowering function as a parameter and this one is used at concrete inputs. -/
def toLowerASCII (s : String) : String :=
  String.mk (s.data.map fun c =>
    if 65 ≤ c.toNat ∧ c.toNat ≤ 90 then Char.ofNat (c.toNat + 32) else c)

/-- What `strings.Builder.WriteRune` appends for the rune `r ≥ 0`: the rune, or
U+FFFD when `r` is no Unicode scalar value. -/
def writeRune (r : Int) : Char :=
  if r.toNat.isValidChar then Char.ofNat r.toNat else Char.ofNat 0xFFFD

/-- Go's `strings.Map` on a list of runes: `mapping` is called once per rune, in
order, and a negative result drops the rune.  The mapping may log, so it
threads the world. -/
def stringsMapRunes (mapping : Int → World → Int × World) :
    List Char → World → List Char × World
  | [], w => ([], w)
  | c :: cs, w =>
    let (r, w1) := mapping (Int.ofNat c.toNat) w
    let (out, w2) := stringsMapRunes mapping cs w1
    (if r < 0 then out else writeRune r :: out, w2)

/-- Go's `strings.Map`. -/
def stringsMap (mapping : Int → World → Int × World) (s : String) (w : World) :
    String × World :=
  let (out, w1) := stringsMapRunes mapping s.data w
  (String.mk out, w1)

/-- Go's `%c` verb for a rune. -/
def fmtC (r : Int) : String :=
  String.singleton (writeRune r)

/-! ## `removeIllegalCharacters` (lines 185-194) -/

/-- Remove illegal characters from filenames. -/
def removeIllegalCharacters (s : String) (w : World) : String × World :=
  stringsMap (fun r w =>
    if r = Int.ofNat '/'.toNat ∨ r = Int.ofNat '\\'.toNat then
      (-1, logPrintf ("Removed " ++ fmtC r ++ " from filename: " ++ s ++ "\n") w)
    else
      (r, w)) s w

/-! ## `createDirIfNotExists` (lines 146-156) -/

/-- What `os.Stat` answers. -/
inductive StatResult where
  | found
  | notExist
  | otherError (err : String)

/-- The answers of the file system while the destination directory is ensured:
that of `os.Stat` and, when it is asked, that of `os.MkdirAll` (an error or
none). -/
structure DirEnv where
  stat : StatResult
  mkdirAll : Option String

/-- Go's `os.IsNotExist` on the error of `os.Stat`. -/
def StatResult.isNotExist : StatResult → Bool
  | .notExist => true
  | _ => false

/-- Create a directory if it doesn't already exist.  The result is the error,
if any. -/
def createDirIfNotExists (destDir : String) (env : DirEnv) (w : World) :
    Option String × World :=
  let w1 := w.emit (.stat destDir)
  if env.stat.isNotExist then
    let w2 := w1.emit (.mkdirAll destDir)
    match env.mkdirAll with
    | some errDir => (some ("failed to create directory: " ++ errDir), w2)
    | none => (none, w2)
  else
    (none, w1)

/-! ## `downloadTracks` (lines 158-183) -/

/-- The answers of the outside world during one call of `downloadTracks`:
the error of `os.Create` if it fails, the error of `http.Get` or the body it
serves, and for `io.Copy` the error and the number of bytes written before it,
if it fails. -/
structure DownloadEnv where
  create : Option String
  get : Except String (List Nat)
  copy : Option (Nat × String)

/-- Download a track from the provided URL. -/
def downloadTracks (url fileName destDir : String) (env : DownloadEnv) (w : World) :
    World :=
  let w := w.emit (.downloadTracks url fileName destDir)
  let filepath := destDir ++ "/" ++ fileName
  -- Create the file
  let w := w.emit (.create filepath)
  match env.create with
  | some err => logPrintf ("Failed to create file " ++ filepath ++ ": " ++ err) w
  | none =>
    let w := w.writeFile filepath []
    -- Get the data from the URL
    let w := w.emit (.httpGet url)
    match env.get with
    | .error err =>
      (logPrintf ("Failed to download track " ++ url ++ ": " ++ err) w).emit (.close filepath)
    | .ok body =>
      -- Write the body to the file
      let w := w.emit (.copy filepath)
      match env.copy with
      | some (n, err) =>
        let w := w.writeFile filepath (body.take n)
        (logPrintf ("Failed to write to file " ++ filepath ++ ": " ++ err) w).emit
          (.close filepath)
      | none => (w.writeFile filepath body).emit (.close filepath)

/-! ## `Album.getTracks` (lines 122-144) -/

/-- The loop of `getTracks` over `A.TrackInfo`; `i` is the index of the first
remaining track, and `env i` answers the download of the track at index `i`. -/
def getTracksLoop (destDir : String) (env : Nat → DownloadEnv) :
    List TrackInfo → Nat → World → World
  | [], _, w => w
  | v :: vs, i, w =>
    match v.File with
    | some file =>
      let (fileName, w1) :=
        removeIllegalCharacters (fmtD v.TrackNum ++ "-" ++ v.Title ++ ".mp3") w
      getTracksLoop destDir env vs (i + 1) (downloadTracks file.MP3_128 fileName destDir (env i) w1)
    | none => getTracksLoop destDir env vs (i + 1) w

/-- Download tracks and save them to the specified destination. -/
def Album.getTracks (A : Album) (C : Config) (toLower : String → String)
    (dirEnv : DirEnv) (env : Nat → DownloadEnv) (w : World) : Res Unit :=
  let artist := toLower A.Artist
  let album := toLower A.Name
  let baseDir := C.UserHomeDir ++ "/bandcamp/"
  let baseDir := if C.BaseDir ≠ "" then C.BaseDir ++ "/" else baseDir
  let destDir := baseDir ++ artist ++ "/" ++ album ++ "/"
  -- Create destination directory if it doesn't exist
  match createDirIfNotExists destDir dirEnv w with
  | (some err, w1) => logFatal ("Failed to create directory: " ++ err) w1
  | (none, w1) =>
    -- Download each track
    .ok () (getTracksLoop destDir env A.TrackInfo 0 w1)

/-! ## Start-up: the two `init` functions (lines 16-23 and 58-66) -/

/-- Go's `strconv.ParseBool`, which sets a boolean flag given as `-name=value`. -/
def parseBool (s : String) : Option Bool :=
  if s ∈ ["1", "t", "T", "TRUE", "true", "True"] then some true
  else if s ∈ ["0", "f", "F", "FALSE", "false", "False"] then some false
  else none

/-- Splits a flag's text `name=value` at the first `=` that is not its first
character, as `flag.parseOne` does. -/
def splitFlagValue : List Char → List Char × Option (List Char)
  | [] => ([], none)
  | c :: cs =>
    match cs.span (fun x => x != '=') with
    | (pre, []) => (c :: pre, none)
    | (pre, _ :: value) => (c :: pre, some value)

/-- Go's `flag.Parse()` on `os.Args[1:]` with the one registered flag, the
boolean `embed-album-art`, and the default `ExitOnError` handling.  The result
is the value of the flag, or the exit code when the package ends the process:
0 after `-h` or `-help`, 2 after a flag it rejects.  Parsing stops at the first
argument that is no flag, or after `--`. -/
def flagParse : List String → Bool → Except Nat Bool
  | [], b => .ok b
  | s :: args, b =>
    match s.data with
    | '-' :: c :: cs =>
      if c = '-' ∧ cs = [] then .ok b
      else
        let name := if c = '-' then cs else c :: cs
        match name with
        | [] => .error 2
        | n :: _ =>
          if n = '-' ∨ n = '=' then .error 2
          else
            match splitFlagValue name with
            | (key, value) =>
              if String.mk key = "embed-album-art" then
                match value with
                | none => flagParse args true
                | some v =>
                  match parseBool (String.mk v) with
                  | some b1 => flagParse args b1
                  | none => .error 2
              else if String.mk key = "help" ∨ String.mk key = "h" then .error 0
              else .error 2
    | _ => .ok b

/-- The first `init`: registers the flag `embed-album-art` (default false) and
parses the command line.  The result is the global `embedAlbumArt`. -/
def initFlags (osArgs : List String) (w : World) : Res Bool :=
  match flagParse osArgs.tail false with
  | .ok b => .ok b w
  | .error code => .exit code w

/-- The second `init`: uses the command-line argument to form the Bandcamp
URL.  The result is the global `site`. -/
def initSite (osArgs : List String) (w : World) : Res String :=
  match osArgs with
  | _ :: arg1 :: _ => .ok ("https://" ++ arg1 ++ ".bandcamp.com") w
  | _ => logFatal "Please provide the Bandcamp URL subdomain as a command-line argument." w

/-! ## `Config.setEnvVars`, `Album.setVars` and `main` (lines 68-120) -/

/-- One element a handler of the collector is called on: a `script` element
with its `data-tralbum` attribute, or a `meta` element with its `property` and
`content` attributes. -/
inductive HTMLElement where
  | scriptTag (dataTralbum : String)
  | metaTag (property content : String)

/-- What `c.Visit` does: it fails with an error, or it fetches the page and
calls the handlers on the matching elements, in the order given. -/
inductive VisitResult where
  | error (err : String)
  | page (elems : List HTMLElement)

/-- Everything the run takes from outside the program: `strings.ToLower`, the
answer of `os.UserHomeDir`, the page behind each URL, `json.Unmarshal` into an
`Album`, and the answers of the file system and the network to the
downloads. -/
structure Env where
  toLower : String → String
  userHomeDir : String
  visit : String → VisitResult
  unmarshal : String → Album → Except String Album
  dirEnv : DirEnv
  download : Nat → DownloadEnv

/-- Set environment variables for the config. -/
def Config.setEnvVars (c : Config) (userHomeDir : String) : Config :=
  { c with UserHomeDir := userHomeDir }

/-- Set album variables from JSON data. -/
def Album.setVars (A : Album) (jsonData : String)
    (unmarshal : String → Album → Except String Album) (w : World) : Res Album :=
  match unmarshal jsonData A with
  | .error err => logFatal ("Failed to parse album JSON: " ++ err) w
  | .ok A1 => .ok A1 w

/-- The two `OnHTML` handlers of `main`, called on the elements of the page. -/
def onHTML (unmarshal : String → Album → Except String Album) :
    List HTMLElement → Album → World → Res Album
  | [], myAlbum, w => .ok myAlbum w
  | .scriptTag link :: es, myAlbum, w =>
    match myAlbum.setVars link unmarshal w with
    | .ok myAlbum1 w1 => onHTML unmarshal es myAlbum1 w1
    | .exit code w1 => .exit code w1
  | .metaTag property content :: es, myAlbum, w =>
    if property = "og:image" then
      onHTML unmarshal es { myAlbum with CoverImageLink := content } w
    else
      onHTML unmarshal es myAlbum w

/-- The function `main`.  `os.Args[1]` exists when `main` runs, the second
`init` has checked it; the Go runtime would end the process with 2 otherwise. -/
def main (osArgs : List String) (env : Env) (w : World) : Res Unit :=
  -- Setup config and fetch album details
  let config : Config := Config.setEnvVars { UserHomeDir := "", BaseDir := "" } env.userHomeDir
  let myAlbum : Album := { Name := "", TrackInfo := [], CoverImageLink := "", Artist := "" }
  match osArgs with
  | _ :: arg1 :: _ =>
    -- Handle Bandcamp URL input
    if stringsContains arg1 "album" then
      let Link := arg1
      -- Start scraping the album page
      let w := w.emit (.visit Link)
      match env.visit Link with
      | .error err => logFatal ("Error visiting the page: " ++ err) w
      | .page elems =>
        (onHTML env.unmarshal elems myAlbum w).bind fun myAlbum w =>
        -- Fetch and download album tracks
        (myAlbum.getTracks config env.toLower env.dirEnv env.download w).bind fun _ w =>
        .ok () (w.emit (.stdout ("Cover Image Link: " ++ myAlbum.CoverImageLink ++ "\n")))
    else
      logFatal "No album is provided" w
  | _ => .exit 2 w

/-- The whole process: the two `init` functions in source order, then `main`. -/
def program (osArgs : List String) (env : Env) (w : World) : Res Unit :=
  (initFlags osArgs w).bind fun _embedAlbumArt w =>
  (initSite osArgs w).bind fun _site w =>
  main osArgs env w

/-! ## What is read off a trace, the specification's wording, concrete inputs -/

/-- The characters `removeIllegalCharacters` looks for. -/
def isIllegal (c : Char) : Bool := c == '/' || c == '\\'

/-- The log line `removeIllegalCharacters` writes when it removes `c` from `s`. -/
def removedLine (s : String) (c : Char) : String :=
  "Removed " ++ String.singleton c ++ " from filename: " ++ s ++ "\n"

/-- The name `s` without its illegal characters, the others in their order. -/
def withoutIllegal (s : String) : String :=
  String.mk (s.data.filter fun c => !isIllegal c)

/-- The calls of `downloadTracks` in a trace, with their three arguments. -/
def calls (t : List Event) : List (String × String × String) :=
  t.filterMap fun e =>
    match e with
    | .downloadTracks url fileName destDir => some (url, fileName, destDir)
    | _ => none

/-- The download attempts in a trace, each named by its audio URL. -/
def attempts (t : List Event) : List String :=
  (calls t).map fun c => c.1

/-- The paths handed to `os.Create` in a trace. -/
def created (t : List Event) : List String :=
  t.filterMap fun e =>
    match e with
    | .create path => some path
    | _ => none

/-- The paths handed to `os.Stat` in a trace. -/
def statCalls (t : List Event) : List String :=
  t.filterMap fun e =>
    match e with
    | .stat path => some path
    | _ => none

/-- The paths handed to `os.MkdirAll` in a trace. -/
def mkdirCalls (t : List Event) : List String :=
  t.filterMap fun e =>
    match e with
    | .mkdirAll path => some path
    | _ => none

/-- The URLs handed to `c.Visit` in a trace. -/
def visits (t : List Event) : List String :=
  t.filterMap fun e =>
    match e with
    | .visit url => some url
    | _ => none

/-- The URLs handed to `http.Get` in a trace. -/
def httpGets (t : List Event) : List String :=
  t.filterMap fun e =>
    match e with
    | .httpGet url => some url
    | _ => none

/-- The lines written to the log in a trace. -/
def logLines (t : List Event) : List String :=
  t.filterMap fun e =>
    match e with
    | .log msg => some msg
    | _ => none

/-- The operations of one call of `downloadTracks`, as its answers decide. -/
def downloadEvents (url fileName destDir : String) (env : DownloadEnv) : List Event :=
  let filepath := destDir ++ "/" ++ fileName
  Event.downloadTracks url fileName destDir :: Event.create filepath ::
    match env.create with
    | some err => [Event.log ("Failed to create file " ++ filepath ++ ": " ++ err)]
    | none =>
      Event.httpGet url ::
        match env.get with
        | .error err =>
          [Event.log ("Failed to download track " ++ url ++ ": " ++ err), Event.close filepath]
        | .ok _ =>
          Event.copy filepath ::
            match env.copy with
            | some (_, err) =>
              [Event.log ("Failed to write to file " ++ filepath ++ ": " ++ err),
                Event.close filepath]
            | none => [Event.close filepath]

/-- The candidate file name of a track, before it is sanitized. -/
def candidateName (v : TrackInfo) : String :=
  fmtD v.TrackNum ++ "-" ++ v.Title ++ ".mp3"

/-- Whether the destination directory is ensured under the answers `env`:
`createDirIfNotExists` fails only when `os.Stat` reports that the directory is
missing and `os.MkdirAll` then fails. -/
def DirEnv.ensured (env : DirEnv) : Bool :=
  !(env.stat.isNotExist && env.mkdirAll.isSome)

/-- The destination directory as the specification words it. -/
def specDestDir (toLower : String → String) (A : Album) (C : Config) : String :=
  (if C.BaseDir = "" then C.UserHomeDir ++ "/bandcamp/" else C.BaseDir ++ "/")
    ++ toLower A.Artist ++ "/" ++ toLower A.Name ++ "/"

/-- A world with no file and an empty trace. -/
def emptyWorld : World := { fs := fun _ => none, trace := [] }

/-- The track of the specification's first scenario. -/
def demoTrack : TrackInfo :=
  { ID := none, TrackID := 0, File := some { MP3_128 := "https://example.com/a.mp3" },
    Artist := none, Title := "Song/One", TrackNum := 1, Duration := 0, AltLink := none,
    PlayCount := none, IsCapped := none }

/-- A track without a file, as `"file": null` decodes. -/
def silentTrack : TrackInfo :=
  { ID := none, TrackID := 0, File := none, Artist := none, Title := "Hidden", TrackNum := 2,
    Duration := 0, AltLink := none, PlayCount := none, IsCapped := none }

/-- The album of the specification's first scenario, with a second track that
has no file. -/
def demoAlbum : Album :=
  { Name := "Demo", TrackInfo := [demoTrack, silentTrack], CoverImageLink := "",
    Artist := "Test Artist" }

/-- A configuration with the base directory `B`. -/
def demoConfig : Config := { UserHomeDir := "/home/u", BaseDir := "B" }

/-- The destination directory is missing and `os.MkdirAll` creates it. -/
def dirMissing : DirEnv := { stat := .notExist, mkdirAll := none }

/-- A download in which every step succeeds and `body` is served. -/
def served (body : List Nat) : DownloadEnv := { create := none, get := .ok body, copy := none }

/-- A download in which `http.Get` fails. -/
def getFails : DownloadEnv := { create := none, get := .error "timeout", copy := none }

/-- The value a run returned, if it returned. -/
def Res.value {α : Type} : Res α → Option α
  | .ok a _ => some a
  | .exit _ _ => none

/-- The usage message of the second `init`. -/
def usageMessage : String :=
  "Please provide the Bandcamp URL subdomain as a command-line argument."

/-- An environment for concrete runs: the page carries one `data-tralbum`
payload and the cover image; the payload of one opening brace is rejected by
the decoder, any other decodes to the tracks of the demo album. -/
def demoEnv (payload : String) : Env :=
  { toLower := toLowerASCII
    userHomeDir := "/home/u"
    visit := fun _ => .page [.scriptTag payload, .metaTag "og:image" "https://example.com/c.jpg"]
    unmarshal := fun j A =>
      if j = "\x7b" then .error "unexpected end of JSON input"
      else .ok { A with TrackInfo := [demoTrack, silentTrack], Artist := "Test Artist" }
    dirEnv := dirMissing
    download := fun _ => served [1, 2, 3] }

/-! ## Lemmas and the claims -/

theorem writeRune_ofNat_toNat (c : Char) : writeRune (Int.ofNat c.toNat) = c := by
  have h : c.toNat.isValidChar := c.valid
  simp [writeRune, h]

theorem writeRune_cast_toNat (c : Char) : writeRune (c.toNat : Int) = c :=
  writeRune_ofNat_toNat c

theorem not_cast_toNat_neg (c : Char) : ¬ ((c.toNat : Int) < 0) := by
  have : (0 : Int) ≤ (c.toNat : Int) := Int.ofNat_nonneg _
  omega

theorem ofNat_toNat_eq_iff (c d : Char) :
    (Int.ofNat c.toNat = Int.ofNat d.toNat) ↔ c = d := by
  constructor
  · intro h
    have h1 : c.toNat = d.toNat := Int.ofNat.inj h
    have := congrArg Char.ofNat h1
    simpa using this
  · rintro rfl; rfl

theorem isIllegal_iff (c : Char) : isIllegal c = true ↔ c = '/' ∨ c = '\\' := by
  simp [isIllegal]

/-- The loop of `strings.Map` under the mapping of `removeIllegalCharacters`:
the legal runes are kept, and one line is logged per illegal rune. -/
theorem stringsMapRunes_removeIllegal (s : String) (cs : List Char) (w : World) :
    stringsMapRunes (fun r w =>
      if r = Int.ofNat '/'.toNat ∨ r = Int.ofNat '\\'.toNat then
        (-1, logPrintf ("Removed " ++ fmtC r ++ " from filename: " ++ s ++ "\n") w)
      else
        (r, w)) cs w
      = (cs.filter (fun c => !isIllegal c),
         { w with trace := w.trace ++
            (cs.filter isIllegal).map (fun c => Event.log (removedLine s c)) }) := by
  induction cs generalizing w with
  | nil => simp [stringsMapRunes]
  | cons c cs ih =>
    by_cases hc : c = '/' ∨ c = '\\'
    · have hi : isIllegal c = true := (isIllegal_iff c).2 hc
      simp only [stringsMapRunes, ofNat_toNat_eq_iff, hc, if_true, ih]
      simp [hi, logPrintf, World.emit, fmtC, writeRune_cast_toNat, removedLine]
    · have hi : isIllegal c = false := by
        cases h : isIllegal c
        · rfl
        · exact absurd ((isIllegal_iff c).1 h) hc
      simp only [stringsMapRunes, ofNat_toNat_eq_iff, hc, if_false, ih]
      simp [hi, writeRune_cast_toNat, not_cast_toNat_neg]

theorem removeIllegalCharacters_eq (s : String) (w : World) :
    removeIllegalCharacters s w
      = (withoutIllegal s,
         { w with trace := w.trace ++
            (s.data.filter isIllegal).map (fun c => Event.log (removedLine s c)) }) := by
  unfold removeIllegalCharacters stringsMap
  rw [stringsMapRunes_removeIllegal]
  rfl

theorem downloadTracks_trace (url fileName destDir : String) (env : DownloadEnv) (w : World) :
    (downloadTracks url fileName destDir env w).trace
      = w.trace ++ downloadEvents url fileName destDir env := by
  obtain ⟨c, g, cp⟩ := env
  cases c <;> cases g <;> cases cp <;>
    simp [downloadTracks, downloadEvents, World.emit, World.writeFile, logPrintf]

theorem calls_downloadEvents (url fileName destDir : String) (env : DownloadEnv) :
    calls (downloadEvents url fileName destDir env) = [(url, fileName, destDir)] := by
  obtain ⟨c, g, cp⟩ := env
  cases c <;> cases g <;> cases cp <;> simp [downloadEvents, calls]

theorem created_downloadEvents (url fileName destDir : String) (env : DownloadEnv) :
    created (downloadEvents url fileName destDir env) = [destDir ++ "/" ++ fileName] := by
  obtain ⟨c, g, cp⟩ := env
  cases c <;> cases g <;> cases cp <;> simp [downloadEvents, created]

theorem statCalls_downloadEvents (url fileName destDir : String) (env : DownloadEnv) :
    statCalls (downloadEvents url fileName destDir env) = [] := by
  obtain ⟨c, g, cp⟩ := env
  cases c <;> cases g <;> cases cp <;> simp [downloadEvents, statCalls]

theorem mkdirCalls_downloadEvents (url fileName destDir : String) (env : DownloadEnv) :
    mkdirCalls (downloadEvents url fileName destDir env) = [] := by
  obtain ⟨c, g, cp⟩ := env
  cases c <;> cases g <;> cases cp <;> simp [downloadEvents, mkdirCalls]

theorem visits_downloadEvents (url fileName destDir : String) (env : DownloadEnv) :
    visits (downloadEvents url fileName destDir env) = [] := by
  obtain ⟨c, g, cp⟩ := env
  cases c <;> cases g <;> cases cp <;> simp [downloadEvents, visits]

theorem calls_append (s t : List Event) : calls (s ++ t) = calls s ++ calls t := by
  simp [calls]

theorem created_append (s t : List Event) : created (s ++ t) = created s ++ created t := by
  simp [created]

theorem statCalls_append (s t : List Event) :
    statCalls (s ++ t) = statCalls s ++ statCalls t := by
  simp [statCalls]

theorem mkdirCalls_append (s t : List Event) :
    mkdirCalls (s ++ t) = mkdirCalls s ++ mkdirCalls t := by
  simp [mkdirCalls]

theorem visits_append (s t : List Event) : visits (s ++ t) = visits s ++ visits t := by
  simp [visits]

theorem calls_map_log (f : Char → String) (cs : List Char) :
    calls (cs.map fun c => Event.log (f c)) = [] := by
  simp [calls]

theorem created_map_log (f : Char → String) (cs : List Char) :
    created (cs.map fun c => Event.log (f c)) = [] := by
  simp [created]

theorem statCalls_map_log (f : Char → String) (cs : List Char) :
    statCalls (cs.map fun c => Event.log (f c)) = [] := by
  simp [statCalls]

theorem mkdirCalls_map_log (f : Char → String) (cs : List Char) :
    mkdirCalls (cs.map fun c => Event.log (f c)) = [] := by
  simp [mkdirCalls]

theorem visits_map_log (f : Char → String) (cs : List Char) :
    visits (cs.map fun c => Event.log (f c)) = [] := by
  simp [visits]

/-- One round of the loop of `getTracks` on a track with a file: the trace
grows by the log lines of the sanitizer and the operations of the download. -/
theorem getTracksLoop_cons_some (destDir : String) (env : Nat → DownloadEnv)
    (v : TrackInfo) (vs : List TrackInfo) (i : Nat) (w : World) (file : File)
    (hf : v.File = some file) :
    ∃ w1 : World,
      getTracksLoop destDir env (v :: vs) i w = getTracksLoop destDir env vs (i + 1) w1 ∧
      w1.trace = w.trace ++
        ((candidateName v).data.filter isIllegal).map
          (fun c => Event.log (removedLine (candidateName v) c)) ++
        downloadEvents file.MP3_128 (withoutIllegal (candidateName v)) destDir (env i) := by
  refine ⟨downloadTracks file.MP3_128 (withoutIllegal (candidateName v)) destDir (env i)
    (removeIllegalCharacters (candidateName v) w).2, ?_, ?_⟩
  · simp only [getTracksLoop, hf]
    rw [show fmtD v.TrackNum ++ "-" ++ v.Title ++ ".mp3" = candidateName v from rfl,
      removeIllegalCharacters_eq]
  · rw [downloadTracks_trace, removeIllegalCharacters_eq]

theorem getTracksLoop_cons_none (destDir : String) (env : Nat → DownloadEnv)
    (v : TrackInfo) (vs : List TrackInfo) (i : Nat) (w : World) (hf : v.File = none) :
    getTracksLoop destDir env (v :: vs) i w = getTracksLoop destDir env vs (i + 1) w := by
  simp only [getTracksLoop, hf]

/-- The calls of `downloadTracks` the loop makes: one per track with a file, in
listing order, with the sanitized candidate name. -/
theorem calls_getTracksLoop (destDir : String) (env : Nat → DownloadEnv)
    (vs : List TrackInfo) (i : Nat) (w : World) :
    calls (getTracksLoop destDir env vs i w).trace
      = calls w.trace ++ vs.filterMap (fun v =>
          v.File.map fun file => (file.MP3_128, withoutIllegal (candidateName v), destDir)) := by
  induction vs generalizing i w with
  | nil => simp [getTracksLoop]
  | cons v vs ih =>
    cases hf : v.File with
    | none => rw [getTracksLoop_cons_none _ _ _ _ _ _ hf, ih]; simp [hf]
    | some file =>
      obtain ⟨w1, h1, h2⟩ := getTracksLoop_cons_some destDir env v vs i w file hf
      rw [h1, ih, h2]
      simp [calls_append, calls_map_log, calls_downloadEvents, hf]

theorem created_getTracksLoop (destDir : String) (env : Nat → DownloadEnv)
    (vs : List TrackInfo) (i : Nat) (w : World) :
    created (getTracksLoop destDir env vs i w).trace
      = created w.trace ++ vs.filterMap (fun v =>
          v.File.map fun _ => destDir ++ "/" ++ withoutIllegal (candidateName v)) := by
  induction vs generalizing i w with
  | nil => simp [getTracksLoop]
  | cons v vs ih =>
    cases hf : v.File with
    | none => rw [getTracksLoop_cons_none _ _ _ _ _ _ hf, ih]; simp [hf]
    | some file =>
      obtain ⟨w1, h1, h2⟩ := getTracksLoop_cons_some destDir env v vs i w file hf
      rw [h1, ih, h2]
      simp [created_append, created_map_log, created_downloadEvents, hf]

theorem statCalls_getTracksLoop (destDir : String) (env : Nat → DownloadEnv)
    (vs : List TrackInfo) (i : Nat) (w : World) :
    statCalls (getTracksLoop destDir env vs i w).trace = statCalls w.trace := by
  induction vs generalizing i w with
  | nil => simp [getTracksLoop]
  | cons v vs ih =>
    cases hf : v.File with
    | none => rw [getTracksLoop_cons_none _ _ _ _ _ _ hf, ih]
    | some file =>
      obtain ⟨w1, h1, h2⟩ := getTracksLoop_cons_some destDir env v vs i w file hf
      rw [h1, ih, h2]
      simp [statCalls_append, statCalls_map_log, statCalls_downloadEvents]

theorem mkdirCalls_getTracksLoop (destDir : String) (env : Nat → DownloadEnv)
    (vs : List TrackInfo) (i : Nat) (w : World) :
    mkdirCalls (getTracksLoop destDir env vs i w).trace = mkdirCalls w.trace := by
  induction vs generalizing i w with
  | nil => simp [getTracksLoop]
  | cons v vs ih =>
    cases hf : v.File with
    | none => rw [getTracksLoop_cons_none _ _ _ _ _ _ hf, ih]
    | some file =>
      obtain ⟨w1, h1, h2⟩ := getTracksLoop_cons_some destDir env v vs i w file hf
      rw [h1, ih, h2]
      simp [mkdirCalls_append, mkdirCalls_map_log, mkdirCalls_downloadEvents]

theorem visits_getTracksLoop (destDir : String) (env : Nat → DownloadEnv)
    (vs : List TrackInfo) (i : Nat) (w : World) :
    visits (getTracksLoop destDir env vs i w).trace = visits w.trace := by
  induction vs generalizing i w with
  | nil => simp [getTracksLoop]
  | cons v vs ih =>
    cases hf : v.File with
    | none => rw [getTracksLoop_cons_none _ _ _ _ _ _ hf, ih]
    | some file =>
      obtain ⟨w1, h1, h2⟩ := getTracksLoop_cons_some destDir env v vs i w file hf
      rw [h1, ih, h2]
      simp [visits_append, visits_map_log, visits_downloadEvents]

theorem logLines_append (s t : List Event) : logLines (s ++ t) = logLines s ++ logLines t := by
  simp [logLines]

theorem logLines_map_log (f : Char → String) (cs : List Char) :
    logLines (cs.map fun c => Event.log (f c)) = cs.map f := by
  induction cs with
  | nil => rfl
  | cons c cs ih =>
    simp only [logLines] at ih
    simp [logLines, List.filterMap_cons, ih]

theorem length_filter_isIllegal (cs : List Char) :
    (cs.filter isIllegal).length = cs.count '/' + cs.count '\\' := by
  induction cs with
  | nil => rfl
  | cons c cs ih =>
    by_cases h1 : c = '/'
    · subst h1
      simp [isIllegal, List.count_cons, ih]
      omega
    · by_cases h2 : c = '\\'
      · subst h2
        simp [isIllegal, List.count_cons, ih]
        omega
      · have hi : isIllegal c = false := by simp [isIllegal, h1, h2]
        simp [hi, List.count_cons, h1, h2, ih]

theorem not_mem_withoutIllegal (s : String) (c : Char) (hc : isIllegal c = true) :
    c ∉ (withoutIllegal s).data := by
  simp [withoutIllegal, hc]

theorem withoutIllegal_of_legal (s : String) (h : ∀ c ∈ s.data, isIllegal c = false) :
    withoutIllegal s = s := by
  have : s.data.filter (fun c => !isIllegal c) = s.data := by
    rw [List.filter_eq_self]
    intro c hc
    simp [h c hc]
  simp [withoutIllegal, this]

theorem filter_not_isIllegal (cs : List Char) :
    cs.filter (fun c => !isIllegal c) = cs.filter (fun c => decide (c ≠ '/' ∧ c ≠ '\\')) := by
  congr 1
  funext c
  by_cases h1 : c = '/' <;> by_cases h2 : c = '\\' <;> simp [isIllegal, h1, h2]

theorem filter_isIllegal (cs : List Char) :
    cs.filter isIllegal = cs.filter (fun c => decide (c = '/' ∨ c = '\\')) := by
  congr 1
  funext c
  by_cases h1 : c = '/' <;> by_cases h2 : c = '\\' <;> simp [isIllegal, h1, h2]

theorem getTracks_destDir (A : Album) (C : Config) (toLower : String → String) :
    (if C.BaseDir ≠ "" then C.BaseDir ++ "/" else C.UserHomeDir ++ "/bandcamp/")
      ++ toLower A.Artist ++ "/" ++ toLower A.Name ++ "/" = specDestDir toLower A C := by
  unfold specDestDir
  by_cases h : C.BaseDir = "" <;> simp [h]

theorem createDirIfNotExists_ensured (destDir : String) (env : DirEnv) (w : World)
    (h : env.ensured = true) : (createDirIfNotExists destDir env w).1 = none := by
  obtain ⟨st, mk⟩ := env
  cases st <;> cases mk <;> simp_all [createDirIfNotExists, DirEnv.ensured, StatResult.isNotExist]

theorem createDirIfNotExists_trace (destDir : String) (env : DirEnv) (w : World) :
    (createDirIfNotExists destDir env w).2.trace
      = w.trace ++ Event.stat destDir ::
          (if env.stat.isNotExist then [Event.mkdirAll destDir] else []) := by
  obtain ⟨st, mk⟩ := env
  cases st <;> cases mk <;> simp [createDirIfNotExists, StatResult.isNotExist, World.emit]

/-- With the directory ensured, `getTracks` is its loop run after
`createDirIfNotExists`, and it returns. -/
theorem getTracks_ensured (A : Album) (C : Config) (toLower : String → String)
    (dirEnv : DirEnv) (env : Nat → DownloadEnv) (w : World) (h : dirEnv.ensured = true) :
    A.getTracks C toLower dirEnv env w
      = .ok () (getTracksLoop (specDestDir toLower A C) env A.TrackInfo 0
          (createDirIfNotExists (specDestDir toLower A C) dirEnv w).2) := by
  have h1 := createDirIfNotExists_ensured (specDestDir toLower A C) dirEnv w h
  unfold Album.getTracks
  simp only [getTracks_destDir]
  generalize createDirIfNotExists (specDestDir toLower A C) dirEnv w = r at h1 ⊢
  obtain ⟨e, w1⟩ := r
  simp only at h1
  subst h1
  rfl

/-- In every case the world `getTracks` ends in has the trace of
`createDirIfNotExists` on the destination directory as a start. -/
theorem getTracks_dir_calls (A : Album) (C : Config) (toLower : String → String)
    (dirEnv : DirEnv) (env : Nat → DownloadEnv) (w : World) :
    statCalls (A.getTracks C toLower dirEnv env w).world.trace
        = statCalls w.trace ++ [specDestDir toLower A C] ∧
    mkdirCalls (A.getTracks C toLower dirEnv env w).world.trace
        = mkdirCalls w.trace ++
            (if dirEnv.stat.isNotExist then [specDestDir toLower A C] else []) := by
  have ht := createDirIfNotExists_trace (specDestDir toLower A C) dirEnv w
  unfold Album.getTracks
  simp only [getTracks_destDir]
  generalize createDirIfNotExists (specDestDir toLower A C) dirEnv w = r at ht ⊢
  obtain ⟨e, w1⟩ := r
  simp only at ht
  cases e with
  | some err =>
    simp only [logFatal, Res.world, World.emit, ht]
    constructor
    · simp [statCalls]
    · simp [mkdirCalls]
      split <;> simp
  | none =>
    simp only [Res.world, statCalls_getTracksLoop, mkdirCalls_getTracksLoop, ht]
    constructor
    · simp [statCalls]
    · simp [mkdirCalls]
      split <;> simp

theorem calls_createDir_events (destDir : String) (env : DirEnv) :
    calls (Event.stat destDir ::
      if env.stat.isNotExist = true then [Event.mkdirAll destDir] else []) = [] := by
  split <;> simp [calls]

theorem created_createDir_events (destDir : String) (env : DirEnv) :
    created (Event.stat destDir ::
      if env.stat.isNotExist = true then [Event.mkdirAll destDir] else []) = [] := by
  split <;> simp [created]

theorem collapseSlashes_cons_cons (c d : Char) (cs : List Char) :
    collapseSlashes (c :: d :: cs)
      = if c = '/' ∧ d = '/' then collapseSlashes (d :: cs)
        else c :: collapseSlashes (d :: cs) := by
  simp [collapseSlashes]

/-- A doubled slash resolves as a single one. -/
theorem collapseSlashes_append_slash_slash (xs ys : List Char) :
    collapseSlashes (xs ++ '/' :: '/' :: ys) = collapseSlashes (xs ++ '/' :: ys) := by
  induction xs with
  | nil =>
    simp only [List.nil_append]
    rw [collapseSlashes_cons_cons]
    simp
  | cons c xs ih =>
    cases xs with
    | nil =>
      simp only [List.nil_append, List.cons_append] at ih ⊢
      rw [collapseSlashes_cons_cons c '/' ('/' :: ys), collapseSlashes_cons_cons c '/' ys, ih]
    | cons d xs =>
      simp only [List.cons_append] at ih ⊢
      rw [collapseSlashes_cons_cons c d (xs ++ '/' :: '/' :: ys),
        collapseSlashes_cons_cons c d (xs ++ '/' :: ys), ih]

theorem resolvePath_slash_slash (a b : String) :
    resolvePath (a ++ "/" ++ "/" ++ b) = resolvePath (a ++ "/" ++ b) := by
  have h := collapseSlashes_append_slash_slash a.data b.data
  simp only [resolvePath, String.data_append]
  have e1 : a.data ++ "/".data ++ "/".data ++ b.data = a.data ++ '/' :: '/' :: b.data := by
    simp [List.append_assoc]
  have e2 : a.data ++ "/".data ++ b.data = a.data ++ '/' :: b.data := by
    simp [List.append_assoc]
  rw [e1, e2, h]

/-- The path `downloadTracks` builds, with its second slash after the
destination directory, resolves as the directory followed by the file name. -/
theorem resolvePath_destDir_join (toLower : String → String) (A : Album) (C : Config)
    (fileName : String) :
    resolvePath (specDestDir toLower A C ++ "/" ++ fileName)
      = resolvePath (specDestDir toLower A C ++ fileName) := by
  unfold specDestDir
  exact resolvePath_slash_slash _ fileName

theorem downloadTracks_fs_isSome (url fileName destDir : String) (env : DownloadEnv)
    (w : World) (p : String) (hp : (w.fs p).isSome = true) :
    ((downloadTracks url fileName destDir env w).fs p).isSome = true := by
  obtain ⟨c, g, cp⟩ := env
  cases c <;> cases g <;> cases cp <;>
    simp only [downloadTracks, World.emit, World.writeFile, logPrintf] <;>
    first
      | exact hp
      | (split <;> first | rfl | exact hp)

theorem downloadTracks_fs_created (url fileName destDir : String) (env : DownloadEnv)
    (w : World) (hc : env.create = none) :
    ((downloadTracks url fileName destDir env w).fs
      (resolvePath (destDir ++ "/" ++ fileName))).isSome = true := by
  obtain ⟨c, g, cp⟩ := env
  simp only at hc
  subst hc
  cases g <;> cases cp <;>
    simp [downloadTracks, World.emit, World.writeFile, logPrintf]

/-- The loop of `getTracks` removes no file. -/
theorem getTracksLoop_fs_isSome (destDir : String) (env : Nat → DownloadEnv)
    (vs : List TrackInfo) (i : Nat) (w : World) (p : String)
    (hp : (w.fs p).isSome = true) :
    ((getTracksLoop destDir env vs i w).fs p).isSome = true := by
  induction vs generalizing i w with
  | nil => simpa [getTracksLoop] using hp
  | cons v vs ih =>
    cases hf : v.File with
    | none =>
      rw [getTracksLoop_cons_none _ _ _ _ _ _ hf]
      exact ih _ _ hp
    | some file =>
      simp only [getTracksLoop, hf]
      rw [show fmtD v.TrackNum ++ "-" ++ v.Title ++ ".mp3" = candidateName v from rfl,
        removeIllegalCharacters_eq]
      exact ih _ _ (downloadTracks_fs_isSome _ _ _ _ _ _ hp)

/-- After the loop of `getTracks` the output file of every track with a file
whose `os.Create` succeeded exists. -/
theorem getTracksLoop_fs_created (destDir : String) (env : Nat → DownloadEnv)
    (vs : List TrackInfo) (i : Nat) (w : World) (k : Nat) (v : TrackInfo)
    (hk : vs[k]? = some v) (hf : v.File.isSome = true) (hc : (env (i + k)).create = none) :
    ((getTracksLoop destDir env vs i w).fs
      (resolvePath (destDir ++ "/" ++ withoutIllegal (candidateName v)))).isSome = true := by
  induction vs generalizing i w k with
  | nil => simp at hk
  | cons u vs ih =>
    cases k with
    | zero =>
      simp only [List.getElem?_cons_zero, Option.some.injEq] at hk
      subst hk
      obtain ⟨file, hfile⟩ := Option.isSome_iff_exists.1 hf
      simp only [getTracksLoop, hfile]
      rw [show fmtD u.TrackNum ++ "-" ++ u.Title ++ ".mp3" = candidateName u from rfl,
        removeIllegalCharacters_eq]
      apply getTracksLoop_fs_isSome
      exact downloadTracks_fs_created _ _ _ _ _ (by simpa using hc)
    | succ k =>
      simp only [List.getElem?_cons_succ] at hk
      have hc2 : (env (i + 1 + k)).create = none := by
        rw [show i + 1 + k = i + (k + 1) by omega]
        exact hc
      cases hu : u.File with
      | none =>
        rw [getTracksLoop_cons_none _ _ _ _ _ _ hu]
        exact ih _ _ _ hk hc2
      | some file =>
        simp only [getTracksLoop, hu]
        exact ih _ _ _ hk hc2

/-- When the directory cannot be ensured, `getTracks` ends the process after
`os.Stat`, `os.MkdirAll` and one log line. -/
theorem getTracks_not_ensured (A : Album) (C : Config) (toLower : String → String)
    (dirEnv : DirEnv) (env : Nat → DownloadEnv) (w : World) (h : dirEnv.ensured = false) :
    ∃ msg, A.getTracks C toLower dirEnv env w
      = .exit 1 { fs := w.fs, trace := w.trace ++
          [Event.stat (specDestDir toLower A C), Event.mkdirAll (specDestDir toLower A C),
            Event.log msg] } := by
  obtain ⟨st, mk⟩ := dirEnv
  cases st <;> cases mk <;> simp [DirEnv.ensured, StatResult.isNotExist] at h
  rename_i errDir
  refine ⟨"Failed to create directory: " ++ ("failed to create directory: " ++ errDir), ?_⟩
  unfold Album.getTracks
  simp only [getTracks_destDir]
  simp [createDirIfNotExists, StatResult.isNotExist, logFatal, World.emit]

/-- C1: whatever the Config, the Album and the answers of the outside world,
`Album.getTracks` calls `createDirIfNotExists` (its `os.Stat`, and its
`os.MkdirAll` when the directory is missing) on exactly one string, namely
baseDir ++ lower(Artist) ++ "/" ++ lower(Name) ++ "/", where baseDir is
UserHomeDir ++ "/bandcamp/" when BaseDir is empty and BaseDir ++ "/"
otherwise. -/
theorem getTracks_destination_directory (A : Album) (C : Config)
    (toLower : String → String) (dirEnv : DirEnv) (env : Nat → DownloadEnv) (w : World) :
    statCalls (A.getTracks C toLower dirEnv env w).world.trace
        = statCalls w.trace ++
          [(if C.BaseDir = "" then C.UserHomeDir ++ "/bandcamp/" else C.BaseDir ++ "/")
            ++ toLower A.Artist ++ "/" ++ toLower A.Name ++ "/"] ∧
    mkdirCalls (A.getTracks C toLower dirEnv env w).world.trace
        = mkdirCalls w.trace ++
          (if dirEnv.stat.isNotExist then
            [(if C.BaseDir = "" then C.UserHomeDir ++ "/bandcamp/" else C.BaseDir ++ "/")
              ++ toLower A.Artist ++ "/" ++ toLower A.Name ++ "/"]
           else []) :=
  getTracks_dir_calls A C toLower dirEnv env w

/-- C2: whatever the Config, the Album and the answers of the outside world,
the files `Album.getTracks` has `os.Create` make are, one per track with a
File and in listing order, the files at `<baseDir>/<lowercased
artist>/<lowercased album>/<trackNum>-<title>.mp3` with the file name
sanitized, that is the destination directory followed by the file name (none
when the directory cannot be ensured); and once the directory is ensured, the
file at that path exists after the run for every such track whose `os.Create`
succeeded. -/
theorem getTracks_output_file_path (A : Album) (C : Config) (toLower : String → String)
    (dirEnv : DirEnv) (env : Nat → DownloadEnv) (w : World) :
    (created (A.getTracks C toLower dirEnv env w).world.trace).map resolvePath
        = (created w.trace).map resolvePath ++
          (if dirEnv.ensured = true then
            A.TrackInfo.filterMap (fun v => v.File.map fun _ =>
              resolvePath (specDestDir toLower A C ++ withoutIllegal (candidateName v)))
           else []) ∧
    (∀ (k : Nat) (v : TrackInfo), A.TrackInfo[k]? = some v → v.File.isSome = true →
      dirEnv.ensured = true → (env k).create = none →
      ((A.getTracks C toLower dirEnv env w).world.readFile
        (specDestDir toLower A C ++ withoutIllegal (candidateName v))).isSome = true) := by
  constructor
  · cases h : dirEnv.ensured with
    | true =>
      rw [getTracks_ensured A C toLower dirEnv env w h]
      simp only [Res.world, created_getTracksLoop, createDirIfNotExists_trace, created_append,
        created_createDir_events, List.append_nil, List.map_append, List.map_filterMap,
        if_true]
      congr 1
      apply List.filterMap_congr
      intro v _
      cases v.File with
      | none => rfl
      | some file =>
        simp only [Option.map_some', Option.some.injEq]
        exact resolvePath_destDir_join toLower A C _
    | false =>
      obtain ⟨msg, hm⟩ := getTracks_not_ensured A C toLower dirEnv env w h
      rw [hm]
      simp [Res.world, created]
  · intro k v hk hf h hc
    rw [getTracks_ensured A C toLower dirEnv env w h]
    simp only [Res.world, World.readFile]
    rw [← resolvePath_destDir_join toLower A C _]
    exact getTracksLoop_fs_created _ _ _ _ _ k v hk hf (by simpa using hc)

/-- C2 at the claim's witness: base directory `B`, artist "Test Artist", album
"Demo" and the track ("Song/One", 1) give the file
"B/test artist/demo/1-SongOne.mp3", which holds the served bytes after the
run. -/
theorem getTracks_output_file_path_witness :
    (created (demoAlbum.getTracks demoConfig toLowerASCII dirMissing
        (fun _ => served [1, 2, 3]) emptyWorld).world.trace).map resolvePath
      = ["B/test artist/demo/1-SongOne.mp3"] ∧
    (demoAlbum.getTracks demoConfig toLowerASCII dirMissing
        (fun _ => served [1, 2, 3]) emptyWorld).world.readFile
      "B/test artist/demo/1-SongOne.mp3" = some [1, 2, 3] :=
  ⟨(getTracks_output_file_path demoAlbum demoConfig toLowerASCII dirMissing
      (fun _ => served [1, 2, 3]) emptyWorld).1.trans (by decide), by rfl⟩

/-- C3: with the directory ensured, the file names `Album.getTracks` passes to
`downloadTracks` are, track by track, decimal(TrackNum) ++ "-" ++ Title ++
".mp3" with every `/` and `\` removed and the other characters kept in order;
`removeIllegalCharacters s` contains neither character, and is `s` when `s`
contains neither. -/
theorem getTracks_fileName_sanitized (A : Album) (C : Config) (toLower : String → String)
    (dirEnv : DirEnv) (env : Nat → DownloadEnv) (w : World) (h : dirEnv.ensured = true) :
    (calls (A.getTracks C toLower dirEnv env w).world.trace).map (fun c => c.2.1)
        = (calls w.trace).map (fun c => c.2.1) ++
          A.TrackInfo.filterMap (fun v => v.File.map fun _ =>
            String.mk ((fmtD v.TrackNum ++ "-" ++ v.Title ++ ".mp3").data.filter
              fun c => decide (c ≠ '/' ∧ c ≠ '\\'))) ∧
    (∀ (s : String) (w : World),
      '/' ∉ (removeIllegalCharacters s w).1.data ∧
      '\\' ∉ (removeIllegalCharacters s w).1.data) ∧
    (∀ (s : String) (w : World), '/' ∉ s.data → '\\' ∉ s.data →
      (removeIllegalCharacters s w).1 = s) := by
  refine ⟨?_, ?_, ?_⟩
  · rw [getTracks_ensured A C toLower dirEnv env w h]
    simp only [Res.world, calls_getTracksLoop, createDirIfNotExists_trace, calls_append]
    have h0 : calls (Event.stat (specDestDir toLower A C) ::
        if dirEnv.stat.isNotExist = true then [Event.mkdirAll (specDestDir toLower A C)]
        else []) = [] := by
      split <;> simp [calls]
    rw [h0]
    simp only [List.append_nil, List.map_append, List.map_filterMap]
    congr 1
    apply List.filterMap_congr
    intro v _
    cases v.File with
    | none => rfl
    | some file =>
      simp only [Option.map_some', Option.some.injEq]
      show withoutIllegal (candidateName v) = _
      simp only [withoutIllegal, filter_not_isIllegal]
      rfl
  · intro s w
    rw [removeIllegalCharacters_eq]
    exact ⟨not_mem_withoutIllegal s '/' rfl, not_mem_withoutIllegal s '\\' rfl⟩
  · intro s w h1 h2
    rw [removeIllegalCharacters_eq]
    apply withoutIllegal_of_legal
    intro c hc
    cases hi : isIllegal c
    · rfl
    · rcases (isIllegal_iff c).1 hi with rfl | rfl
      · exact absurd hc h1
      · exact absurd hc h2

/-- C3 at the demo album: the one file name passed is "1-SongOne.mp3". -/
theorem getTracks_fileName_sanitized_witness :
    (calls (demoAlbum.getTracks demoConfig toLowerASCII dirMissing
        (fun _ => served [1, 2, 3]) emptyWorld).world.trace).map (fun c => c.2.1)
      = ["1-SongOne.mp3"] :=
  (getTracks_fileName_sanitized demoAlbum demoConfig toLowerASCII dirMissing
    (fun _ => served [1, 2, 3]) emptyWorld rfl).1.trans (by decide)

/-- The download attempts of `getTracks` once the directory is ensured, for
every assignment of outcomes to the downloads. -/
theorem attempts_getTracks (A : Album) (C : Config) (toLower : String → String)
    (dirEnv : DirEnv) (env : Nat → DownloadEnv) (w : World) (h : dirEnv.ensured = true) :
    attempts (A.getTracks C toLower dirEnv env w).world.trace
      = attempts w.trace ++ A.TrackInfo.filterMap (fun v => v.File.map fun file => file.MP3_128) := by
  rw [getTracks_ensured A C toLower dirEnv env w h]
  simp only [attempts, Res.world, calls_getTracksLoop, createDirIfNotExists_trace, calls_append,
    calls_createDir_events, List.append_nil, List.map_append, List.map_filterMap]
  congr 1
  apply List.filterMap_congr
  intro v _
  cases v.File <;> rfl

/-- C5: once the destination directory is ensured, for every assignment `env`
of outcomes to the downloads (an error of `os.Create`, of `http.Get` or of
`io.Copy`, or success), `Album.getTracks` returns normally, it attempts every
track with a File, in listing order, and its attempts are those of any other
assignment `env2`, in particular of the one in which every download
succeeds. -/
theorem getTracks_track_failures_do_not_abort (A : Album) (C : Config)
    (toLower : String → String) (dirEnv : DirEnv) (env env2 : Nat → DownloadEnv) (w : World)
    (h : dirEnv.ensured = true) :
    (A.getTracks C toLower dirEnv env w).returned = true ∧
    attempts (A.getTracks C toLower dirEnv env w).world.trace
        = attempts w.trace ++
          A.TrackInfo.filterMap (fun v => v.File.map fun file => file.MP3_128) ∧
    attempts (A.getTracks C toLower dirEnv env w).world.trace
        = attempts (A.getTracks C toLower dirEnv env2 w).world.trace := by
  refine ⟨?_, attempts_getTracks A C toLower dirEnv env w h, ?_⟩
  · rw [getTracks_ensured A C toLower dirEnv env w h]
    rfl
  · rw [attempts_getTracks A C toLower dirEnv env w h,
      attempts_getTracks A C toLower dirEnv env2 w h]

/-- C5 at the demo album with a failing `http.Get`: the run returns and the
track is attempted all the same. -/
theorem getTracks_track_failures_do_not_abort_witness :
    (demoAlbum.getTracks demoConfig toLowerASCII dirMissing
        (fun _ => getFails) emptyWorld).returned = true ∧
    attempts (demoAlbum.getTracks demoConfig toLowerASCII dirMissing
        (fun _ => getFails) emptyWorld).world.trace
      = ["https://example.com/a.mp3"] :=
  have h := getTracks_track_failures_do_not_abort demoAlbum demoConfig toLowerASCII dirMissing
    (fun _ => getFails) (fun _ => served [1, 2, 3]) emptyWorld rfl
  ⟨h.1, h.2.1.trans (by decide)⟩

/-- C9: `removeIllegalCharacters s` adds to the trace only log lines, one per
`/` or `\` of `s` and in their order, each naming the removed character and the
whole candidate name `s`; their number is the number of `/` plus the number of
`\` in `s`. -/
theorem removeIllegalCharacters_log_lines (s : String) (w : World) :
    (removeIllegalCharacters s w).2.trace
        = w.trace ++ (s.data.filter fun c => decide (c = '/' ∨ c = '\\')).map
            (fun c => Event.log
              ("Removed " ++ String.singleton c ++ " from filename: " ++ s ++ "\n")) ∧
    logLines (removeIllegalCharacters s w).2.trace
        = logLines w.trace ++ (s.data.filter fun c => decide (c = '/' ∨ c = '\\')).map
            (fun c => "Removed " ++ String.singleton c ++ " from filename: " ++ s ++ "\n") ∧
    (logLines (removeIllegalCharacters s w).2.trace).length
        = (logLines w.trace).length + (s.data.count '/' + s.data.count '\\') := by
  have ht : (removeIllegalCharacters s w).2.trace
      = w.trace ++ (s.data.filter isIllegal).map (fun c => Event.log (removedLine s c)) := by
    rw [removeIllegalCharacters_eq]
  refine ⟨?_, ?_, ?_⟩
  · rw [ht, filter_isIllegal]
    rfl
  · rw [ht, logLines_append, logLines_map_log, filter_isIllegal]
    rfl
  · rw [ht, logLines_append, logLines_map_log, List.length_append, List.length_map,
      length_filter_isIllegal]

/-- C10: when `os.Create` succeeds and `http.Get` then fails, `downloadTracks`
has called `os.Create` before `http.Get`, and the file at the destination path
exists and is empty after the call, whatever it held before. -/
theorem downloadTracks_get_failure_leaves_empty_file (url fileName destDir err : String)
    (copy : Option (Nat × String)) (w : World) :
    (downloadTracks url fileName destDir { create := none, get := .error err, copy := copy }
        w).readFile (destDir ++ "/" ++ fileName) = some [] ∧
    (downloadTracks url fileName destDir { create := none, get := .error err, copy := copy }
        w).trace
      = w.trace ++
        [Event.downloadTracks url fileName destDir,
         Event.create (destDir ++ "/" ++ fileName),
         Event.httpGet url,
         Event.log ("Failed to download track " ++ url ++ ": " ++ err),
         Event.close (destDir ++ "/" ++ fileName)] := by
  constructor <;> simp [downloadTracks, World.emit, World.writeFile, World.readFile, logPrintf]

/-- The handlers leave the world as it is, or end the run inside `setVars`. -/
theorem onHTML_cases (u : String → Album → Except String Album) (elems : List HTMLElement)
    (A : Album) (w : World) :
    (∃ A1, onHTML u elems A w = .ok A1 w) ∨
    (∃ err, onHTML u elems A w
      = .exit 1 (w.emit (.log ("Failed to parse album JSON: " ++ err)))) := by
  induction elems generalizing A with
  | nil => exact Or.inl ⟨A, rfl⟩
  | cons e es ih =>
    cases e with
    | scriptTag link =>
      cases hu : u link A with
      | error err =>
        right
        exact ⟨err, by simp [onHTML, Album.setVars, hu, logFatal]⟩
      | ok A1 =>
        have h1 : onHTML u (.scriptTag link :: es) A w = onHTML u es A1 w := by
          simp [onHTML, Album.setVars, hu]
        rw [h1]
        exact ih A1
    | metaTag property content =>
      by_cases hp : property = "og:image"
      · have h1 : onHTML u (.metaTag property content :: es) A w
            = onHTML u es { A with CoverImageLink := content } w := by
          simp [onHTML, hp]
        rw [h1]
        exact ih _
      · have h1 : onHTML u (.metaTag property content :: es) A w = onHTML u es A w := by
          simp [onHTML, hp]
        rw [h1]
        exact ih _

/-- A page with a payload the decoder rejects ends the run inside `setVars`. -/
theorem onHTML_rejected (u : String → Album → Except String Album) (elems : List HTMLElement)
    (A : Album) (w : World) (j : String) (hj : HTMLElement.scriptTag j ∈ elems)
    (hrej : ∀ A, ∃ err, u j A = .error err) :
    ∃ err, onHTML u elems A w
      = .exit 1 (w.emit (.log ("Failed to parse album JSON: " ++ err))) := by
  induction elems generalizing A with
  | nil => simp at hj
  | cons e es ih =>
    cases e with
    | scriptTag link =>
      cases hu : u link A with
      | error err => exact ⟨err, by simp [onHTML, Album.setVars, hu, logFatal]⟩
      | ok A1 =>
        have h1 : onHTML u (.scriptTag link :: es) A w = onHTML u es A1 w := by
          simp [onHTML, Album.setVars, hu]
        rw [h1]
        have hne : link ≠ j := by
          rintro rfl
          obtain ⟨err, he⟩ := hrej A
          rw [he] at hu
          cases hu
        have hj2 : HTMLElement.scriptTag j ∈ es := by
          rcases List.mem_cons.1 hj with h | h
          · injection h with h
            exact absurd h.symm hne
          · exact h
        exact ih A1 hj2
    | metaTag property content =>
      have hj2 : HTMLElement.scriptTag j ∈ es := by
        rcases List.mem_cons.1 hj with h | h
        · cases h
        · exact h
      by_cases hp : property = "og:image"
      · have h1 : onHTML u (.metaTag property content :: es) A w
            = onHTML u es { A with CoverImageLink := content } w := by
          simp [onHTML, hp]
        rw [h1]
        exact ih _ hj2
      · have h1 : onHTML u (.metaTag property content :: es) A w = onHTML u es A w := by
          simp [onHTML, hp]
        rw [h1]
        exact ih _ hj2

/-- With flags that parse and a first argument, the process reaches `main`. -/
theorem program_eq_main (prog arg : String) (rest : List String) (env : Env) (w : World)
    (b : Bool) (hf : flagParse (arg :: rest) false = .ok b) :
    program (prog :: arg :: rest) env w = main (prog :: arg :: rest) env w := by
  simp [program, initFlags, initSite, hf, Res.bind]

theorem visits_getTracks (A : Album) (C : Config) (toLower : String → String)
    (dirEnv : DirEnv) (env : Nat → DownloadEnv) (w : World) :
    visits (A.getTracks C toLower dirEnv env w).world.trace = visits w.trace := by
  have ht := createDirIfNotExists_trace (specDestDir toLower A C) dirEnv w
  unfold Album.getTracks
  simp only [getTracks_destDir]
  generalize createDirIfNotExists (specDestDir toLower A C) dirEnv w = r at ht ⊢
  obtain ⟨e, w1⟩ := r
  simp only at ht
  cases e with
  | some err =>
    simp only [logFatal, Res.world, World.emit, ht]
    simp [visits]
  | none =>
    simp only [Res.world, visits_getTracksLoop, ht]
    simp [visits]

/-- The page request of `main` is one `c.Visit` of `os.Args[1]`. -/
theorem visits_main (prog arg : String) (rest : List String) (env : Env) (w : World)
    (hc : stringsContains arg "album" = true) :
    visits (main (prog :: arg :: rest) env w).world.trace = visits w.trace ++ [arg] := by
  unfold main
  simp only [hc, if_true]
  cases hv : env.visit arg with
  | error err => simp [logFatal, Res.world, World.emit, visits]
  | page elems =>
    simp only
    rcases onHTML_cases env.unmarshal elems
      { Name := "", TrackInfo := [], CoverImageLink := "", Artist := "" }
      (w.emit (.visit arg)) with ⟨A1, h1⟩ | ⟨err, h1⟩
    · rw [h1]
      simp only [Res.bind]
      have hg := visits_getTracks A1 (Config.setEnvVars { UserHomeDir := "", BaseDir := "" }
        env.userHomeDir) env.toLower env.dirEnv env.download (w.emit (.visit arg))
      generalize A1.getTracks (Config.setEnvVars { UserHomeDir := "", BaseDir := "" }
        env.userHomeDir) env.toLower env.dirEnv env.download (w.emit (.visit arg)) = r at hg ⊢
      cases r with
      | ok a w2 =>
        simp only [Res.world] at hg ⊢
        simp only [World.emit, visits_append, hg]
        simp [visits]
      | exit c w2 =>
        simp only [Res.world] at hg ⊢
        simp only [World.emit, visits_append, hg]
        simp [visits]
    · rw [h1]
      simp [Res.bind, Res.world, World.emit, visits]

/-- C6 as stated fails: for the argument "https://artist.bandcamp.com/album/demo",
which passes the validation, the one page request goes to the argument itself,
while `site` holds "https://https://artist.bandcamp.com/album/demo.bandcamp.com". -/
theorem program_visit_is_not_site :
    stringsContains "https://artist.bandcamp.com/album/demo" "album" = true ∧
    visits (program ["bandcampy", "https://artist.bandcamp.com/album/demo"]
        (demoEnv "\x7b\x7d") emptyWorld).world.trace
      = ["https://artist.bandcamp.com/album/demo"] ∧
    (initSite ["bandcampy", "https://artist.bandcamp.com/album/demo"] emptyWorld).value
      = some "https://https://artist.bandcamp.com/album/demo.bandcamp.com" ∧
    visits (program ["bandcampy", "https://artist.bandcamp.com/album/demo"]
        (demoEnv "\x7b\x7d") emptyWorld).world.trace
      ≠ ["https://" ++ "https://artist.bandcamp.com/album/demo" ++ ".bandcamp.com"] := by
  refine ⟨by decide, by rfl, by rfl, by decide⟩

/-- C6, amended: for every command line whose flags parse and whose first
argument passes the validation (contains "album"), the process issues exactly
one page request, and its URL is that argument as given (`Link`, which is
`os.Args[1]`); the value of `site` takes no part in it. -/
theorem program_visits_argument (prog arg : String) (rest : List String) (env : Env)
    (w : World) (b : Bool) (hf : flagParse (arg :: rest) false = .ok b)
    (hc : stringsContains arg "album" = true) :
    visits (program (prog :: arg :: rest) env w).world.trace = visits w.trace ++ [arg] := by
  rw [program_eq_main prog arg rest env w b hf]
  exact visits_main prog arg rest env w hc

/-- C6, amended, at the command line `bandcampy https://artist.bandcamp.com/album/demo`. -/
theorem program_visits_argument_witness :
    visits (program ["bandcampy", "https://artist.bandcamp.com/album/demo"]
        (demoEnv "\x7b\x7d") emptyWorld).world.trace
      = visits emptyWorld.trace ++ ["https://artist.bandcamp.com/album/demo"] :=
  program_visits_argument "bandcampy" "https://artist.bandcamp.com/album/demo" []
    (demoEnv "\x7b\x7d") emptyWorld false (by rfl) (by decide)

/-- C7, the code at the two command lines of the claim: with only the program
name the process ends with the usage error and nothing else happens; with the
program name followed by `--embed-album-art` the second `init` returns
normally (no usage error), the flag itself passes the validation of `main`,
and `c.Visit` is called on it. -/
theorem program_flag_only_command_line (env : Env) (w : World) :
    program ["prog"] env w = .exit 1 (w.emit (.log usageMessage)) ∧
    (initSite ["prog", "--embed-album-art"] w).returned = true ∧
    stringsContains "--embed-album-art" "album" = true ∧
    visits (program ["prog", "--embed-album-art"] env w).world.trace
      = visits w.trace ++ ["--embed-album-art"] := by
  refine ⟨by rfl, by rfl, by decide, ?_⟩
  rw [program_eq_main "prog" "--embed-album-art" [] env w true (by rfl)]
  exact visits_main "prog" "--embed-album-art" [] env w (by decide)

/-- C8: when the page carries a `data-tralbum` payload that `json.Unmarshal`
rejects, the process ends with exit code 1 inside `setVars`: after the page
visit the trace holds only the line "Failed to parse album JSON: ...", so
`os.Stat` and `os.MkdirAll` are never called, `downloadTracks`, `os.Create`
and `http.Get` are never called, and the files are as they were. -/
theorem program_malformed_json_is_fatal (prog arg : String) (rest : List String) (env : Env)
    (w : World) (b : Bool) (elems : List HTMLElement) (j : String)
    (hf : flagParse (arg :: rest) false = .ok b)
    (hc : stringsContains arg "album" = true)
    (hv : env.visit arg = .page elems)
    (hj : HTMLElement.scriptTag j ∈ elems)
    (hrej : ∀ A, ∃ err, env.unmarshal j A = .error err) :
    (program (prog :: arg :: rest) env w).exitCode = some 1 ∧
    (∃ err, (program (prog :: arg :: rest) env w).world.trace
      = w.trace ++ [Event.visit arg, Event.log ("Failed to parse album JSON: " ++ err)]) ∧
    statCalls (program (prog :: arg :: rest) env w).world.trace = statCalls w.trace ∧
    mkdirCalls (program (prog :: arg :: rest) env w).world.trace = mkdirCalls w.trace ∧
    calls (program (prog :: arg :: rest) env w).world.trace = calls w.trace ∧
    created (program (prog :: arg :: rest) env w).world.trace = created w.trace ∧
    httpGets (program (prog :: arg :: rest) env w).world.trace = httpGets w.trace ∧
    (program (prog :: arg :: rest) env w).world.fs = w.fs := by
  obtain ⟨err, he⟩ := onHTML_rejected env.unmarshal elems
    { Name := "", TrackInfo := [], CoverImageLink := "", Artist := "" }
    (w.emit (.visit arg)) j hj hrej
  have hp : program (prog :: arg :: rest) env w
      = .exit 1 ((w.emit (.visit arg)).emit
          (.log ("Failed to parse album JSON: " ++ err))) := by
    rw [program_eq_main prog arg rest env w b hf]
    unfold main
    simp only [hc, if_true, hv, he, Res.bind]
  rw [hp]
  refine ⟨rfl, ⟨err, by simp [Res.world, World.emit]⟩, ?_, ?_, ?_, ?_, ?_, rfl⟩ <;>
    simp [Res.world, World.emit, statCalls, mkdirCalls, calls, created, httpGets]

/-- C8 at the demo page whose payload is one opening brace: the run ends right after the page
visit. -/
theorem program_malformed_json_is_fatal_witness :
    (program ["bandcampy", "https://artist.bandcamp.com/album/demo"]
        (demoEnv "\x7b") emptyWorld).exitCode = some 1 ∧
    statCalls (program ["bandcampy", "https://artist.bandcamp.com/album/demo"]
        (demoEnv "\x7b") emptyWorld).world.trace = statCalls emptyWorld.trace :=
  have h := program_malformed_json_is_fatal "bandcampy"
    "https://artist.bandcamp.com/album/demo" [] (demoEnv "\x7b") emptyWorld false
    [.scriptTag "\x7b", .metaTag "og:image" "https://example.com/c.jpg"] "\x7b"
    (by rfl) (by decide) (by rfl) (by simp)
    (fun _ => ⟨"unexpected end of JSON input", by rfl⟩)
  ⟨h.1, h.2.2.1⟩

end Bandcamp
